import Mathlib

/-!
Shallow embedding of the PortaPack baseband firmware core
(`firmware/baseband/main.cpp`) and verification of the behavioural
properties of its specification.

The embedding models:
- the message identifiers and configuration records crossing the bus;
- the `BasebandConfiguration` handler lambda registered in `main`,
  including processor destruction/construction ordering and the
  handler-registration side effects of `FSKProcessor`'s constructor
  and destructor;
- the `EventDispatcher` dispatch loop body;
- the per-symbol FSK pipeline glue in `FSKProcessor::execute`
  (`symbol_handler_fn`, `consume_symbol`, `payload_handler`);
- components whose implementations live in headers outside the
  provided sources (`ClockRecovery`, `AccessCodeCorrelator`,
  `PacketBuilder`, `ChannelDecimator`, `MessageHandlerMap`), which are
  modelled from the specification text, each marked as such in its
  doc comment.
-/

/-- Message kind discriminator (`Message::ID`), restricted to the kinds
that appear in `main.cpp`: handlers are registered for
`BasebandConfiguration`, `FSKConfiguration` and `Shutdown`; the
outbound kinds are pushed to the application queue. -/
inductive MessageID where
  | basebandConfiguration
  | fskConfiguration
  | shutdown
  | basebandStatistics
  | rssiStatistics
  | fskPacket
deriving DecidableEq, Repr

/-- The `BasebandConfiguration` value object: `mode` selects the
processor variant; `sampling_rate` is read by the baseband thread. -/
structure BasebandConfiguration where
  mode : Int
  sampling_rate : Nat
deriving DecidableEq, Repr

/-- The four `BasebandProcessor` variants constructed by the
`BasebandConfiguration` handler switch in `main`. -/
inductive ProcessorKind where
  | narrowbandAMAudio
  | narrowbandFMAudio
  | widebandFMAudio
  | fskProcessor
deriving DecidableEq, Repr

/-- Message kinds whose handlers are registered by a processor's
constructor and unregistered by its destructor.  Only `FSKProcessor`
registers a handler (for `Message::ID::FSKConfiguration`); the three
audio processors register none. -/
def ProcessorKind.ownedHandlers : ProcessorKind → List MessageID
  | .fskProcessor => [MessageID.fskConfiguration]
  | _ => []

/-- `switch(message->configuration.mode)` in the handler lambda:
modes 0..3 name a processor variant; any other mode falls into
`default: break`, leaving no processor. -/
def processorForMode (mode : Int) : Option ProcessorKind :=
  if mode = 0 then some ProcessorKind.narrowbandAMAudio
  else if mode = 1 then some ProcessorKind.narrowbandFMAudio
  else if mode = 2 then some ProcessorKind.widebandFMAudio
  else if mode = 3 then some ProcessorKind.fskProcessor
  else none

/-- Number of handlers registered per message kind.  Registration is
modelled structurally (a register adds one, an unregister removes the
registrations of the given kinds), so that the at-most-one-handler
invariant is a proved property, not an assumption. -/
def HandlerCount := MessageID → Nat

/-- Effect of a processor destructor on the handler map: every kind it
owns is unregistered (`unregister_handler`). -/
def unregisterAll (h : HandlerCount) (ks : List MessageID) : HandlerCount :=
  fun k => if k ∈ ks then 0 else h k

/-- Effect of a processor constructor on the handler map: every kind
it owns gets one more registration (`register_handler`). -/
def registerAll (h : HandlerCount) (ks : List MessageID) : HandlerCount :=
  fun k => if k ∈ ks then h k + 1 else h k

/-- The dispatcher-context state touched by the `BasebandConfiguration`
handler: the active-processor pointer, the stored configuration, the
handler map, and the DMA / RSSI enablement flags. -/
structure MainState where
  baseband_processor : Option ProcessorKind
  baseband_configuration : BasebandConfiguration
  handlers : HandlerCount
  dma_enabled : Bool
  rssi_running : Bool

/-- `auto old_p = baseband_processor; baseband_processor = nullptr;
delete old_p;` — the old processor (when present) is destroyed, its
destructor unregistering every handler it owns; `delete nullptr` is a
no-op. -/
def destroyProcessor (s : MainState) : MainState :=
  { s with
    baseband_processor := none
    handlers :=
      match s.baseband_processor with
      | none => s.handlers
      | some p => unregisterAll s.handlers p.ownedHandlers }

/-- The `switch` constructing the new processor: for a recognized mode
the constructor runs (registering the handlers it owns); for the
`default` case the processor pointer stays null. -/
def constructProcessor (s : MainState) (mode : Int) : MainState :=
  match processorForMode mode with
  | none => s
  | some p =>
      { s with
        baseband_processor := some p
        handlers := registerAll s.handlers p.ownedHandlers }

/-- `if (baseband_processor) { rssi::start(); dma::enable(direction); }
else { dma::disable(); rssi::stop(); }` with
`direction == baseband::Direction::Receive`. -/
def updatePeripherals (s : MainState) : MainState :=
  if s.baseband_processor.isSome then
    { s with rssi_running := true, dma_enabled := true }
  else
    { s with dma_enabled := false, rssi_running := false }

/-- The `BasebandConfiguration` handler lambda registered in `main`:
on a mode change, destroy the old processor, construct the new one,
and update DMA/RSSI; in every case store the received configuration. -/
def basebandConfigurationHandler (s : MainState) (msg : BasebandConfiguration) :
    MainState :=
  if msg.mode ≠ s.baseband_configuration.mode then
    let s1 := destroyProcessor s
    let s2 := constructProcessor s1 msg.mode
    let s3 := updatePeripherals s2
    { s3 with baseband_configuration := msg }
  else
    { s with baseband_configuration := msg }

/-- The successive handler-map states observed while the mode-change
branch of the handler runs: before anything, after the old processor's
destructor, after the new processor's constructor.  (The peripheral
update and the configuration store do not touch the handler map.)  On
the no-change branch the map is never touched. -/
def modeSwitchHandlerTrace (s : MainState) (msg : BasebandConfiguration) :
    List HandlerCount :=
  if msg.mode ≠ s.baseband_configuration.mode then
    [s.handlers,
     (destroyProcessor s).handlers,
     (constructProcessor (destroyProcessor s) msg.mode).handlers]
  else
    [s.handlers]

/-- Invariant maintained by the dispatcher context: every message kind
has at most one registered handler, and the `FSKConfiguration` handler
is registered exactly when the active processor is the `FSKProcessor`
that owns it. -/
def mainInvariant (s : MainState) : Prop :=
  (∀ k, s.handlers k ≤ 1) ∧
  s.handlers MessageID.fskConfiguration =
    (if s.baseband_processor = some ProcessorKind.fskProcessor then 1 else 0)

/-- Modelled from the spec: the implementation of `MessageHandlerMap`
(`register_handler` / `unregister_handler`) lives in a header that is
not among the provided sources; only its callers are.  Per the spec,
"Exactly one handler may be registered per message kind at any time;
registering a second handler for an already-registered kind is a
programming error (must fail loudly, not silently override)", so
registration on an occupied kind returns no updated map. -/
def registerHandlerChecked (h : HandlerCount) (k : MessageID) :
    Option HandlerCount :=
  if h k ≠ 0 then none
  else some (fun j => if j = k then h j + 1 else h j)

/-- An action performed by `EventDispatcher::dispatch`: a message of
the given kind sent through the message map, or a spectrum update. -/
inductive DispatchAction where
  | dispatchMessage (kind : MessageID)
  | spectrumUpdate
deriving DecidableEq, Repr

/-- The event flags relevant to `EventDispatcher::dispatch`:
`EVT_MASK_BASEBAND` and `EVT_MASK_SPECTRUM`. -/
structure EventMask where
  baseband : Bool
  spectrum : Bool

/-- `EventDispatcher::handle_baseband_queue`: pop messages while the
inbound queue is non-empty and send each through the message map. -/
def handleBasebandQueue : List MessageID → List DispatchAction
  | [] => []
  | k :: rest => DispatchAction.dispatchMessage k :: handleBasebandQueue rest

/-- `EventDispatcher::dispatch`: if the baseband event is flagged,
drain the inbound queue; then, if the spectrum event is flagged,
handle the spectrum update.  Returns the action sequence in execution
order together with the queue contents afterwards. -/
def eventDispatcherDispatch (events : EventMask) (queue : List MessageID) :
    List DispatchAction × List MessageID :=
  let drained := if events.baseband then handleBasebandQueue queue else []
  let queueAfter := if events.baseband then [] else queue
  let spectrumActs :=
    if events.spectrum then [DispatchAction.spectrumUpdate] else []
  (drained ++ spectrumActs, queueAfter)

/-- Modelled from the spec: `PacketBuilder` (header not among the
provided sources; `FSKProcessor::consume_symbol` is its caller).
State machine of spec §4.6: `Idle`/`Capturing` with a fixed
`packet_length`, a bit buffer and a received-bit counter (here the
buffer's length).  A match (re)starts capture with a cleared buffer,
not storing the triggering symbol; a later match preempts a capture in
progress. -/
structure PacketBuilder where
  packet_length : Nat
  capturing : Bool
  payload : List Nat
deriving DecidableEq, Repr

/-- `PacketBuilder::configure(packet_length)`: set the length, return
to `Idle` with an empty buffer. -/
def PacketBuilder.configure (n : Nat) : PacketBuilder :=
  ⟨n, false, []⟩

/-- Modelled from the spec: one `PacketBuilder::execute` step.  Returns
the next state and, when the capture completes, the payload together
with the received-bit count handed to the payload-complete handler. -/
def PacketBuilder.execute (pb : PacketBuilder) (symbol : Nat)
    (access_code_found : Bool) : PacketBuilder × Option (List Nat × Nat) :=
  if access_code_found then
    ({ pb with capturing := true, payload := [] }, none)
  else if pb.capturing then
    let bits := pb.payload ++ [symbol]
    if bits.length = pb.packet_length then
      ({ pb with capturing := false, payload := [] }, some (bits, bits.length))
    else
      ({ pb with payload := bits }, none)
  else
    (pb, none)

/-- Feed a stream of (symbol, access-code-found) pairs through the
packet builder, collecting every payload-complete emission. -/
def PacketBuilder.run (pb : PacketBuilder) :
    List (Nat × Bool) → PacketBuilder × List (List Nat × Nat)
  | [] => (pb, [])
  | (sym, found) :: rest =>
      let step := pb.execute sym found
      let tail := step.1.run rest
      (tail.1, step.2.toList ++ tail.2)

/-- The `FSKPacketMessage` assembled by `FSKProcessor::payload_handler`:
`message.packet.payload = payload; message.packet.bits_received =
bits_received`. -/
structure FSKPacketMessage where
  payload : List Nat
  bits_received : Nat
deriving DecidableEq, Repr

/-- `FSKProcessor::payload_handler`: wrap the completed payload and bit
count into the message pushed to the application queue. -/
def payloadHandler (payload : List Nat) (bits_received : Nat) :
    FSKPacketMessage :=
  ⟨payload, bits_received⟩

/-- Modelled from the spec: `ClockRecovery` (header not among the
provided sources; the per-sample loop in `FSKProcessor::execute` is
its caller).  A phase accumulator driven by the configured
samples-per-symbol ratio: each input sample advances the phase by one
sample unit, and each crossing of the symbol boundary (every
`samples_per_symbol` units) emits exactly one symbol decision, the
residue carrying over. -/
structure ClockRecovery where
  samples_per_symbol : Nat
  phase : Nat
deriving DecidableEq, Repr

/-- One `ClockRecovery::execute` step: advance the accumulator by one
sample; report whether a symbol boundary was crossed (and one symbol
decision emitted through the callback). -/
def ClockRecovery.execute (cr : ClockRecovery) : ClockRecovery × Bool :=
  let p := cr.phase + 1
  if cr.samples_per_symbol ≤ p then
    ({ cr with phase := p - cr.samples_per_symbol }, true)
  else
    ({ cr with phase := p }, false)

/-- Run `ClockRecovery.execute` over `s` steady input samples, counting
the symbol decisions emitted. -/
def ClockRecovery.run (cr : ClockRecovery) : Nat → ClockRecovery × Nat
  | 0 => (cr, 0)
  | s + 1 =>
      let step := cr.execute
      let tail := step.1.run s
      (tail.1, (if step.2 then 1 else 0) + tail.2)

/-- Count of set bits among the lowest `len` bits of `n`. -/
def countOnes : Nat → Nat → Nat
  | 0, _ => 0
  | len + 1, n => n % 2 + countOnes len (n / 2)

/-- Hamming distance between the lowest `len` bits of `a` and of `b`:
the number of bit positions below `len` where they differ. -/
def hammingDistBits (a b len : Nat) : Nat :=
  ((Finset.range len).filter (fun i => a.testBit i ≠ b.testBit i)).card

/-- Modelled from the spec: `AccessCodeCorrelator` (header not among
the provided sources; `FSKProcessor::configure` and the symbol handler
in `FSKProcessor::execute` are its callers).  A rolling window of the
most recent `access_code_length` symbols, compared by Hamming distance
against the target pattern each time a symbol is shifted in.  The
window `history` is kept reduced modulo `2 ^ access_code_length`. -/
structure AccessCodeCorrelator where
  access_code : Nat
  access_code_length : Nat
  access_code_tolerance : Nat
  history : Nat
deriving DecidableEq, Repr

/-- `AccessCodeCorrelator::configure(code, length, tolerance)`: install
the target pattern and clear the window. -/
def AccessCodeCorrelator.configure (code len tol : Nat) :
    AccessCodeCorrelator :=
  ⟨code, len, tol, 0⟩

/-- One `AccessCodeCorrelator::execute` step: shift the new symbol into
the window, mask to the configured length, and declare a match when
the popcount of the window-XOR-code disagreement is within the
tolerance. -/
def AccessCodeCorrelator.execute (c : AccessCodeCorrelator) (symbol : Nat) :
    AccessCodeCorrelator × Bool :=
  let h := (c.history * 2 + symbol % 2) % 2 ^ c.access_code_length
  (⟨c.access_code, c.access_code_length, c.access_code_tolerance, h⟩,
   decide (countOnes c.access_code_length
       ((h ^^^ c.access_code) % 2 ^ c.access_code_length)
     ≤ c.access_code_tolerance))

/-- The decimation factors offered by `ChannelDecimator`; the
`FSKProcessor` instantiates `DecimationFactor::By16`. -/
inductive DecimationFactor where
  | by4
  | by8
  | by16
deriving DecidableEq, Repr

/-- Number of half-band decimate-by-2 stages a factor comprises. -/
def DecimationFactor.stages : DecimationFactor → Nat
  | .by4 => 2
  | .by8 => 3
  | .by16 => 4

/-- The overall decimation factor: `2 ^ stages`. -/
def DecimationFactor.factor (f : DecimationFactor) : Nat :=
  2 ^ f.stages

/-- A sample buffer: a sample sequence plus its sampling rate (the
`buffer_c8_t` / `buffer_c16_t` view types, with the sample values left
abstract in `α`). -/
structure SampleBuffer (α : Type) where
  samples : List α
  sampling_rate : Nat

/-- Modelled from the spec: one half-band decimate-by-2 stage of the
`ChannelDecimator` (header not among the provided sources).  Each pair
of input samples yields one output sample; the claims under
verification concern sample counts and rates, so the per-sample
filter arithmetic is abstracted to keeping one value per pair. -/
def decimateBy2 {α : Type} : List α → List α
  | a :: _ :: rest => a :: decimateBy2 rest
  | _ => []

/-- One half-band stage on a buffer: halve the sample list and the
sampling rate. -/
def halfBandStage {α : Type} (b : SampleBuffer α) : SampleBuffer α :=
  ⟨decimateBy2 b.samples, b.sampling_rate / 2⟩

/-- Modelled from the spec: `ChannelDecimator::execute` cascades the
configured number of half-band stages over the input buffer. -/
def channelDecimatorExecute {α : Type} (f : DecimationFactor)
    (b : SampleBuffer α) : SampleBuffer α :=
  halfBandStage^[f.stages] b

/-- The per-symbol state threaded through `FSKProcessor`'s symbol
pipeline: the correlator window and the packet builder. -/
structure FSKPipelineState where
  correlator : AccessCodeCorrelator
  builder : PacketBuilder
deriving DecidableEq, Repr

/-- Feed one already-quantized symbol through the correlator and then
`FSKProcessor::consume_symbol` (the packet builder), as the body of the
symbol handler does once the symbol decision is made. -/
def feedSymbol (s : FSKPipelineState) (symbol : Nat) :
    FSKPipelineState × Option (List Nat × Nat) :=
  let corrStep := s.correlator.execute symbol
  let builderStep := s.builder.execute symbol corrStep.2
  (⟨corrStep.1, builderStep.1⟩, builderStep.2)

/-- The sign quantization on line
`const uint_fast8_t symbol = (value >= 0.0f) ? 1 : 0;` of
`FSKProcessor::execute`, with the demodulated sample value modelled as
a rational. -/
def symbolDecision (value : ℚ) : Nat :=
  if 0 ≤ value then 1 else 0

/-- `symbol_handler_fn` in `FSKProcessor::execute`: quantize the
demodulated value to a symbol, run the access-code correlator on it,
and hand symbol and match flag to `consume_symbol`. -/
def symbolHandlerFn (s : FSKPipelineState) (value : ℚ) :
    FSKPipelineState × Option (List Nat × Nat) :=
  feedSymbol s (symbolDecision value)

/-! Helper lemmas about the handler map and the mode-change handler. -/

theorem unregisterAll_apply (h : HandlerCount) (ks : List MessageID)
    (k : MessageID) : unregisterAll h ks k = if k ∈ ks then 0 else h k :=
  rfl

theorem registerAll_apply (h : HandlerCount) (ks : List MessageID)
    (k : MessageID) : registerAll h ks k = if k ∈ ks then h k + 1 else h k :=
  rfl

theorem unregisterAll_le (h : HandlerCount) (ks : List MessageID)
    (k : MessageID) : unregisterAll h ks k ≤ h k := by
  rw [unregisterAll_apply]
  split
  · exact Nat.zero_le _
  · exact Nat.le_refl _

theorem destroyProcessor_processor (s : MainState) :
    (destroyProcessor s).baseband_processor = none :=
  rfl

theorem destroyProcessor_handlers_le (s : MainState) (k : MessageID) :
    (destroyProcessor s).handlers k ≤ s.handlers k := by
  unfold destroyProcessor
  cases s.baseband_processor with
  | none => exact Nat.le_refl _
  | some p => exact unregisterAll_le _ _ _

theorem destroyProcessor_fskConfiguration (s : MainState)
    (hinv : mainInvariant s) :
    (destroyProcessor s).handlers MessageID.fskConfiguration = 0 := by
  unfold destroyProcessor
  cases hp : s.baseband_processor with
  | none =>
      have h2 := hinv.2
      rw [hp] at h2
      simpa using h2
  | some p =>
      cases p with
      | fskProcessor =>
          simp [unregisterAll_apply, ProcessorKind.ownedHandlers]
      | narrowbandAMAudio =>
          have h2 := hinv.2
          rw [hp] at h2
          simpa [unregisterAll_apply, ProcessorKind.ownedHandlers] using h2
      | narrowbandFMAudio =>
          have h2 := hinv.2
          rw [hp] at h2
          simpa [unregisterAll_apply, ProcessorKind.ownedHandlers] using h2
      | widebandFMAudio =>
          have h2 := hinv.2
          rw [hp] at h2
          simpa [unregisterAll_apply, ProcessorKind.ownedHandlers] using h2

theorem constructProcessor_processor_of_none (s : MainState)
    (hs : s.baseband_processor = none) (m : Int) :
    (constructProcessor s m).baseband_processor = processorForMode m := by
  unfold constructProcessor
  cases h : processorForMode m with
  | none => simpa [h] using hs
  | some p => simp [h]

theorem constructProcessor_handlers (s : MainState) (m : Int) (k : MessageID) :
    (constructProcessor s m).handlers k =
      if processorForMode m = some ProcessorKind.fskProcessor ∧
          k = MessageID.fskConfiguration
      then s.handlers k + 1 else s.handlers k := by
  unfold constructProcessor
  cases h : processorForMode m with
  | none => simp [h]
  | some p =>
      cases p <;> by_cases hk : k = MessageID.fskConfiguration <;>
        simp [h, registerAll_apply, ProcessorKind.ownedHandlers, hk]

/-- C9: a `BasebandConfiguration` message whose mode equals the stored
mode leaves the active processor, the handler map and the peripheral
flags untouched; only the stored configuration is replaced by the one
carried in the message. -/
theorem same_mode_updates_only_configuration (s : MainState)
    (msg : BasebandConfiguration)
    (hmode : msg.mode = s.baseband_configuration.mode) :
    basebandConfigurationHandler s msg =
      { s with baseband_configuration := msg } := by
  unfold basebandConfigurationHandler
  simp [hmode]

/-- Witness for C9: with narrowband FM (mode 1) active, a mode-1
message with a different sampling rate replaces only the stored
configuration. -/
theorem same_mode_updates_only_configuration_witness :
    basebandConfigurationHandler
      ⟨some ProcessorKind.narrowbandFMAudio, ⟨1, 3072000⟩, fun _ => 0, true, true⟩
      ⟨1, 2457600⟩
    = ⟨some ProcessorKind.narrowbandFMAudio, ⟨1, 2457600⟩, fun _ => 0, true, true⟩ :=
  same_mode_updates_only_configuration _ _ rfl

/-- C1 counterexample: with narrowband FM (mode 1) active and DMA
enabled, a `BasebandConfiguration` message carrying unrecognized mode 7
is *not* rejected: the active processor is destroyed rather than left
running, DMA is disabled, and the configuration value is stored. -/
theorem invalid_mode_rejection_counterexample :
    ¬ (((basebandConfigurationHandler
          ⟨some ProcessorKind.narrowbandFMAudio, ⟨1, 3072000⟩, fun _ => 0, true, true⟩
          ⟨7, 3072000⟩).baseband_processor = some ProcessorKind.narrowbandFMAudio) ∧
       ((basebandConfigurationHandler
          ⟨some ProcessorKind.narrowbandFMAudio, ⟨1, 3072000⟩, fun _ => 0, true, true⟩
          ⟨7, 3072000⟩).dma_enabled = true)) := by
  decide

/-- C1 amended: a `BasebandConfiguration` message with an unrecognized
mode different from the stored one destroys the active processor
(releasing its handler registrations — the handler invariant is
preserved, so no registration is corrupted), constructs no new
processor, disables DMA and stops RSSI (fail-safe: processing is left
disabled), and stores the received configuration. -/
theorem unknown_mode_disables_processing (s : MainState)
    (msg : BasebandConfiguration) (hinv : mainInvariant s)
    (hmode : processorForMode msg.mode = none)
    (hne : msg.mode ≠ s.baseband_configuration.mode) :
    (basebandConfigurationHandler s msg).baseband_processor = none ∧
    (basebandConfigurationHandler s msg).dma_enabled = false ∧
    (basebandConfigurationHandler s msg).rssi_running = false ∧
    (basebandConfigurationHandler s msg).baseband_configuration = msg ∧
    mainInvariant (basebandConfigurationHandler s msg) := by
  have hs2 : constructProcessor (destroyProcessor s) msg.mode =
      destroyProcessor s := by
    unfold constructProcessor
    rw [hmode]
  have hnone : (destroyProcessor s).baseband_processor = none :=
    destroyProcessor_processor s
  unfold basebandConfigurationHandler
  rw [if_pos hne]
  simp only [hs2, updatePeripherals, hnone, Option.isSome_none,
    Bool.false_eq_true, if_false]
  refine ⟨trivial, trivial, trivial, trivial, ?_, ?_⟩
  · intro k
    exact Nat.le_trans (destroyProcessor_handlers_le s k) (hinv.1 k)
  · simpa using destroyProcessor_fskConfiguration s hinv

/-- Witness for C1 (amended): mode 7 arriving while narrowband FM
(mode 1) is active leaves no processor, disables DMA and RSSI, and
stores the new configuration. -/
theorem unknown_mode_disables_processing_witness :
    (basebandConfigurationHandler
        ⟨some ProcessorKind.narrowbandFMAudio, ⟨1, 3072000⟩, fun _ => 0, true, true⟩
        ⟨7, 3072000⟩).baseband_processor = none ∧
    (basebandConfigurationHandler
        ⟨some ProcessorKind.narrowbandFMAudio, ⟨1, 3072000⟩, fun _ => 0, true, true⟩
        ⟨7, 3072000⟩).dma_enabled = false ∧
    (basebandConfigurationHandler
        ⟨some ProcessorKind.narrowbandFMAudio, ⟨1, 3072000⟩, fun _ => 0, true, true⟩
        ⟨7, 3072000⟩).rssi_running = false ∧
    (basebandConfigurationHandler
        ⟨some ProcessorKind.narrowbandFMAudio, ⟨1, 3072000⟩, fun _ => 0, true, true⟩
        ⟨7, 3072000⟩).baseband_configuration = ⟨7, 3072000⟩ ∧
    mainInvariant (basebandConfigurationHandler
        ⟨some ProcessorKind.narrowbandFMAudio, ⟨1, 3072000⟩, fun _ => 0, true, true⟩
        ⟨7, 3072000⟩) :=
  unknown_mode_disables_processing
    ⟨some ProcessorKind.narrowbandFMAudio, ⟨1, 3072000⟩, fun _ => 0, true, true⟩
    ⟨7, 3072000⟩ ⟨fun _ => Nat.zero_le _, rfl⟩ (by decide) (by decide)

/-- C3: registering a handler for a message kind that already has one
is rejected (no updated map is produced); a successful registration
adds exactly the requested kind and preserves the at-most-one-handler
bound. -/
theorem register_handler_duplicate_rejected (h : HandlerCount)
    (k : MessageID) :
    (h k ≠ 0 → registerHandlerChecked h k = none) ∧
    (∀ h2, registerHandlerChecked h k = some h2 →
      h2 k = h k + 1 ∧ (∀ j, j ≠ k → h2 j = h j) ∧
      ((∀ j, h j ≤ 1) → ∀ j, h2 j ≤ 1)) := by
  constructor
  · intro hk
    unfold registerHandlerChecked
    rw [if_pos hk]
  · intro h2 hsome
    unfold registerHandlerChecked at hsome
    by_cases hk : h k ≠ 0
    · rw [if_pos hk] at hsome
      exact absurd hsome (by simp)
    · rw [if_neg hk] at hsome
      have hk0 : h k = 0 := Classical.not_not.mp (fun hcon => hk hcon)
      have hfun : h2 = fun j => if j = k then h j + 1 else h j :=
        (Option.some_inj.mp hsome).symm
      subst hfun
      refine ⟨by simp, fun j hj => by simp [hj], fun hb j => ?_⟩
      by_cases hj : j = k
      · subst hj
        simp [hk0]
      · simpa [hj] using hb j

/-- Witness for C3: on a map where every kind is occupied, registering
for `Shutdown` is rejected. -/
theorem register_handler_duplicate_rejected_witness :
    registerHandlerChecked (fun _ => 1) MessageID.shutdown = none :=
  (register_handler_duplicate_rejected (fun _ => 1) MessageID.shutdown).1
    (by decide)

theorem handleBasebandQueue_eq_map (q : List MessageID) :
    handleBasebandQueue q = q.map DispatchAction.dispatchMessage := by
  induction q with
  | nil => rfl
  | cons k rest ih => simp [handleBasebandQueue, ih]

/-- C5: on a wake whose event mask includes the baseband flag (which
is raised whenever a message is pushed, so a non-empty queue implies
it), `EventDispatcher::dispatch` pops and dispatches every pending
message — the queue is empty afterwards — and every one of those
dispatches precedes the spectrum-update handling in the action
sequence. -/
theorem dispatch_drains_queue_before_spectrum (e : EventMask)
    (q : List MessageID) (hwake : e.baseband = true ∨ q = []) :
    (eventDispatcherDispatch e q).2 = [] ∧
    (eventDispatcherDispatch e q).1 =
      q.map DispatchAction.dispatchMessage ++
        (if e.spectrum then [DispatchAction.spectrumUpdate] else []) := by
  rcases hwake with hb | hq
  · simp [eventDispatcherDispatch, hb, handleBasebandQueue_eq_map]
  · subst hq
    cases he : e.baseband <;>
      simp [eventDispatcherDispatch, he, handleBasebandQueue_eq_map]

/-- Witness for C5: two pending messages plus a pending spectrum event
produce both dispatches, in queue order, before the spectrum update,
leaving the queue empty. -/
theorem dispatch_drains_queue_before_spectrum_witness :
    (eventDispatcherDispatch ⟨true, true⟩
      [MessageID.fskConfiguration, MessageID.shutdown]).2 = [] ∧
    (eventDispatcherDispatch ⟨true, true⟩
      [MessageID.fskConfiguration, MessageID.shutdown]).1 =
      [DispatchAction.dispatchMessage MessageID.fskConfiguration,
       DispatchAction.dispatchMessage MessageID.shutdown,
       DispatchAction.spectrumUpdate] := by
  have h := dispatch_drains_queue_before_spectrum ⟨true, true⟩
    [MessageID.fskConfiguration, MessageID.shutdown] (Or.inl rfl)
  exact ⟨h.1, by rw [h.2]; rfl⟩

theorem updatePeripherals_processor (s : MainState) :
    (updatePeripherals s).baseband_processor = s.baseband_processor := by
  unfold updatePeripherals
  split <;> rfl

theorem updatePeripherals_handlers (s : MainState) :
    (updatePeripherals s).handlers = s.handlers := by
  unfold updatePeripherals
  split <;> rfl

theorem basebandConfigurationHandler_of_ne (s : MainState)
    (msg : BasebandConfiguration)
    (hne : msg.mode ≠ s.baseband_configuration.mode) :
    basebandConfigurationHandler s msg =
      { updatePeripherals (constructProcessor (destroyProcessor s) msg.mode)
          with baseband_configuration := msg } := by
  unfold basebandConfigurationHandler
  rw [if_pos hne]

/-- C2: on every mode change, the old processor's destructor runs —
and releases every handler registration it owns — strictly before the
new processor's constructor registers its own: at the intermediate
instant the old registrations are gone, at no instant of the
handler-map trace does any message kind carry two registrations, and
the ownership invariant holds again afterwards. -/
theorem mode_switch_destroy_before_construct (s : MainState)
    (msg : BasebandConfiguration) (hinv : mainInvariant s)
    (hne : msg.mode ≠ s.baseband_configuration.mode) :
    (∀ p, s.baseband_processor = some p →
      ∀ k ∈ p.ownedHandlers, (destroyProcessor s).handlers k = 0) ∧
    (∀ h ∈ modeSwitchHandlerTrace s msg, ∀ k, h k ≤ 1) ∧
    mainInvariant (basebandConfigurationHandler s msg) := by
  have hd0 : (destroyProcessor s).handlers MessageID.fskConfiguration = 0 :=
    destroyProcessor_fskConfiguration s hinv
  have hd1 : ∀ k, (destroyProcessor s).handlers k ≤ 1 :=
    fun k => Nat.le_trans (destroyProcessor_handlers_le s k) (hinv.1 k)
  have hc1 : ∀ k,
      (constructProcessor (destroyProcessor s) msg.mode).handlers k ≤ 1 := by
    intro k
    rw [constructProcessor_handlers]
    split
    · rename_i hcond
      rw [hcond.2, hd0]
    · exact hd1 k
  refine ⟨?_, ?_, ?_⟩
  · intro p hp k hk
    unfold destroyProcessor
    rw [hp]
    simp [unregisterAll_apply, hk]
  · intro h hh k
    unfold modeSwitchHandlerTrace at hh
    rw [if_pos hne] at hh
    simp only [List.mem_cons, List.not_mem_nil, or_false] at hh
    rcases hh with hh | hh | hh
    · exact hh ▸ hinv.1 k
    · exact hh ▸ hd1 k
    · exact hh ▸ hc1 k
  · rw [basebandConfigurationHandler_of_ne s msg hne]
    constructor
    · intro k
      simpa [updatePeripherals_handlers] using hc1 k
    · have hproc :
          (constructProcessor (destroyProcessor s) msg.mode).baseband_processor
            = processorForMode msg.mode :=
        constructProcessor_processor_of_none _ (destroyProcessor_processor s) _
      simp only [updatePeripherals_handlers, updatePeripherals_processor,
        hproc, constructProcessor_handlers]
      by_cases hm : processorForMode msg.mode = some ProcessorKind.fskProcessor
      · simp [hm, hd0]
      · simp [hm, hd0]

/-- Witness for C2: switching from FSK (mode 3, which owns the
`FSKConfiguration` handler) to narrowband FM (mode 1): the owned
registration is gone at the intermediate instant, no kind ever has two
registrations, and the invariant holds afterwards. -/
theorem mode_switch_destroy_before_construct_witness :
    (∀ p, (⟨some ProcessorKind.fskProcessor, ⟨3, 3072000⟩,
        fun k => if k = MessageID.basebandConfiguration ∨
            k = MessageID.shutdown ∨ k = MessageID.fskConfiguration
          then 1 else 0, true, true⟩ : MainState).baseband_processor = some p →
      ∀ k ∈ p.ownedHandlers,
        (destroyProcessor ⟨some ProcessorKind.fskProcessor, ⟨3, 3072000⟩,
          fun k => if k = MessageID.basebandConfiguration ∨
              k = MessageID.shutdown ∨ k = MessageID.fskConfiguration
            then 1 else 0, true, true⟩).handlers k = 0) ∧
    (∀ h ∈ modeSwitchHandlerTrace
        ⟨some ProcessorKind.fskProcessor, ⟨3, 3072000⟩,
          fun k => if k = MessageID.basebandConfiguration ∨
              k = MessageID.shutdown ∨ k = MessageID.fskConfiguration
            then 1 else 0, true, true⟩ ⟨1, 3072000⟩, ∀ k, h k ≤ 1) ∧
    mainInvariant (basebandConfigurationHandler
        ⟨some ProcessorKind.fskProcessor, ⟨3, 3072000⟩,
          fun k => if k = MessageID.basebandConfiguration ∨
              k = MessageID.shutdown ∨ k = MessageID.fskConfiguration
            then 1 else 0, true, true⟩ ⟨1, 3072000⟩) :=
  mode_switch_destroy_before_construct
    ⟨some ProcessorKind.fskProcessor, ⟨3, 3072000⟩,
      fun k => if k = MessageID.basebandConfiguration ∨
          k = MessageID.shutdown ∨ k = MessageID.fskConfiguration
        then 1 else 0, true, true⟩ ⟨1, 3072000⟩
    ⟨by intro k; cases k <;> decide, by decide⟩ (by decide)

theorem PacketBuilder.execute_packet_length (pb : PacketBuilder)
    (symbol : Nat) (found : Bool) :
    ((pb.execute symbol found).1).packet_length = pb.packet_length := by
  unfold PacketBuilder.execute
  dsimp only
  split
  · rfl
  · split
    · split <;> rfl
    · rfl

theorem PacketBuilder.execute_emission (pb : PacketBuilder) (symbol : Nat)
    (found : Bool) (em : List Nat × Nat)
    (h : (pb.execute symbol found).2 = some em) :
    em.2 = pb.packet_length ∧ em.1.length = pb.packet_length := by
  unfold PacketBuilder.execute at h
  dsimp only at h
  split at h
  · simp at h
  · split at h
    · split at h
      · rename_i hlen
        rw [Option.some_inj] at h
        subst h
        exact ⟨hlen, hlen⟩
      · simp at h
    · simp at h

theorem PacketBuilder.run_emissions (stream : List (Nat × Bool)) :
    ∀ (pb : PacketBuilder), ∀ em ∈ (pb.run stream).2,
      em.2 = pb.packet_length ∧ em.1.length = pb.packet_length := by
  induction stream with
  | nil =>
      intro pb em hem
      simp [PacketBuilder.run] at hem
  | cons sf rest ih =>
      intro pb em hem
      obtain ⟨s, f⟩ := sf
      simp only [PacketBuilder.run] at hem
      rw [List.mem_append] at hem
      rcases hem with hem | hem
      · have hsome : (pb.execute s f).2 = some em := by
          cases ho : (pb.execute s f).2 with
          | none => rw [ho] at hem; simp at hem
          | some x =>
              rw [ho] at hem
              simp at hem
              rw [hem]
        exact PacketBuilder.execute_emission pb s f em hsome
      · have h := ih (pb.execute s f).1 em hem
        rwa [PacketBuilder.execute_packet_length] at h

/-- C4: every payload-complete emission of the packet builder carries a
received-bit count exactly equal to the configured packet length — the
payload holds exactly that many bits — and the `FSKPacketMessage`
assembled by `payload_handler` reports that same count. -/
theorem packet_builder_emits_exact_length (n : Nat)
    (stream : List (Nat × Bool)) (em : List Nat × Nat)
    (hem : em ∈ ((PacketBuilder.configure n).run stream).2) :
    em.2 = n ∧ em.1.length = n ∧
    (payloadHandler em.1 em.2).bits_received = n := by
  have h := PacketBuilder.run_emissions stream (PacketBuilder.configure n) em hem
  exact ⟨h.1, h.2, h.1⟩

/-- Witness for C4: with packet length 2, a match followed by symbols
1, 0 completes exactly one capture reporting 2 bits received. -/
theorem packet_builder_emits_exact_length_witness :
    (([1, 0], 2) : List Nat × Nat) ∈
      ((PacketBuilder.configure 2).run [(0, true), (1, false), (0, false)]).2 ∧
    (([1, 0], 2) : List Nat × Nat).2 = 2 ∧
    ([1, 0] : List Nat).length = 2 ∧
    (payloadHandler [1, 0] 2).bits_received = 2 := by
  have hmem : (([1, 0], 2) : List Nat × Nat) ∈
      ((PacketBuilder.configure 2).run
        [(0, true), (1, false), (0, false)]).2 := by
    decide
  exact ⟨hmem, packet_builder_emits_exact_length 2 _ _ hmem⟩

theorem ClockRecovery.run_count (k : Nat) (hk : 0 < k) :
    ∀ (S p : Nat), p < k →
      ((ClockRecovery.mk k p).run S).2 = (p + S) / k := by
  intro S
  induction S with
  | zero =>
      intro p hp
      simp [ClockRecovery.run, Nat.div_eq_of_lt hp]
  | succ S ih =>
      intro p hp
      simp only [ClockRecovery.run, ClockRecovery.execute]
      by_cases hb : k ≤ p + 1
      · rw [if_pos hb]
        have h0 : p + 1 - k = 0 := by omega
        rw [h0, ih 0 hk]
        rw [show p + (S + 1) = S + k by omega, Nat.add_div_right S hk]
        simp [Nat.add_comm]
      · rw [if_neg hb]
        rw [ih (p + 1) (by omega)]
        rw [show p + 1 + S = p + (S + 1) by omega]
        simp

/-- C6: over `S` steady input samples with samples-per-symbol `k`, the
clock-recovery loop emits one symbol decision per boundary crossing,
for a total within one unit of `S / k`: at least `S / k` and at most
`S / k + 1`, the slack being the initial phase residue. -/
theorem clock_recovery_symbol_count (k p S : Nat) (hk : 0 < k)
    (hp : p < k) :
    S / k ≤ ((ClockRecovery.mk k p).run S).2 ∧
    ((ClockRecovery.mk k p).run S).2 ≤ S / k + 1 := by
  rw [ClockRecovery.run_count k hk S p hp]
  constructor
  · exact Nat.div_le_div_right (Nat.le_add_left S p)
  · calc (p + S) / k ≤ (k + S) / k := Nat.div_le_div_right (by omega)
      _ = S / k + 1 := by rw [Nat.add_comm k S, Nat.add_div_right S hk]

/-- Witness for C6: samples-per-symbol 4, zero initial phase, 10
samples: the symbol count lies between 10/4 = 2 and 3. -/
theorem clock_recovery_symbol_count_witness :
    10 / 4 ≤ ((ClockRecovery.mk 4 0).run 10).2 ∧
    ((ClockRecovery.mk 4 0).run 10).2 ≤ 10 / 4 + 1 :=
  clock_recovery_symbol_count 4 0 10 (by decide) (by decide)

theorem decimateBy2_length {α : Type} :
    ∀ (l : List α), (decimateBy2 l).length = l.length / 2
  | [] => by simp [decimateBy2]
  | [_] => by simp [decimateBy2]
  | _ :: _ :: rest => by
      simp only [decimateBy2, List.length_cons, decimateBy2_length rest]
      omega

theorem channelDecimator_stage_iterate {α : Type} (k : Nat) :
    ∀ (b : SampleBuffer α),
      (halfBandStage^[k] b).samples.length = b.samples.length / 2 ^ k ∧
      (halfBandStage^[k] b).sampling_rate = b.sampling_rate / 2 ^ k := by
  induction k with
  | zero => intro b; simp
  | succ k ih =>
      intro b
      rw [Function.iterate_succ_apply]
      have h := ih (halfBandStage b)
      have hpow : (2 : Nat) ^ (k + 1) = 2 * 2 ^ k := by
        rw [pow_succ]
        ring
      constructor
      · rw [h.1]
        simp only [halfBandStage]
        rw [decimateBy2_length, Nat.div_div_eq_div_mul, hpow]
      · rw [h.2]
        simp only [halfBandStage]
        rw [Nat.div_div_eq_div_mul, hpow]

/-- C8: for a decimation factor `f` and an input buffer whose sample
count is divisible by `f`, the channel decimator produces `count / f`
output samples at `rate / f`. -/
theorem channel_decimator_count_and_rate {α : Type} (f : DecimationFactor)
    (b : SampleBuffer α) (_hdvd : f.factor ∣ b.samples.length) :
    (channelDecimatorExecute f b).samples.length =
      b.samples.length / f.factor ∧
    (channelDecimatorExecute f b).sampling_rate =
      b.sampling_rate / f.factor := by
  unfold channelDecimatorExecute DecimationFactor.factor
  exact channelDecimator_stage_iterate f.stages b

/-- Witness for C8: decimation by 16 turns 2048 samples at 2.4576 MHz
into 128 samples at 153.6 kHz. -/
theorem channel_decimator_count_and_rate_witness :
    (channelDecimatorExecute DecimationFactor.by16
      ⟨List.replicate 2048 (0 : Int), 2457600⟩).samples.length = 128 ∧
    (channelDecimatorExecute DecimationFactor.by16
      ⟨List.replicate 2048 (0 : Int), 2457600⟩).sampling_rate = 153600 := by
  have h := channel_decimator_count_and_rate DecimationFactor.by16
    ⟨List.replicate 2048 (0 : Int), 2457600⟩
    (by
      simp only [List.length_replicate, DecimationFactor.factor,
        DecimationFactor.stages]
      decide)
  refine ⟨?_, ?_⟩
  · rw [h.1, List.length_replicate]
    norm_num [DecimationFactor.factor, DecimationFactor.stages]
  · rw [h.2]
    norm_num [DecimationFactor.factor, DecimationFactor.stages]

theorem countOnes_eq_sum : ∀ (len m : Nat),
    countOnes len m = ∑ i ∈ Finset.range len, if m.testBit i then 1 else 0 := by
  intro len
  induction len with
  | zero => intro m; simp [countOnes]
  | succ len ih =>
      intro m
      have hsum := Finset.sum_range_succ'
        (fun i => if m.testBit i then 1 else 0) len
      rw [countOnes, ih (m / 2), hsum, Nat.add_comm]
      congr 1
      · exact Finset.sum_congr rfl (fun i _ => by rw [Nat.testBit_succ])
      · rw [Nat.testBit_zero]
        rcases Nat.mod_two_eq_zero_or_one m with hm | hm <;> simp [hm]

theorem countOnes_masked_xor (h c len : Nat) :
    countOnes len ((h ^^^ c) % 2 ^ len) = hammingDistBits h c len := by
  rw [countOnes_eq_sum]
  unfold hammingDistBits
  rw [Finset.card_filter]
  apply Finset.sum_congr rfl
  intro i hi
  rw [Finset.mem_range] at hi
  simp only [Nat.testBit_mod_two_pow, Nat.testBit_xor]
  cases hh : h.testBit i <;> cases hc : c.testBit i <;> simp [hi]

/-- C7: appending a symbol to the correlator declares a match exactly
when the Hamming distance between the updated window and the
configured access code (over the configured length) is at most the
configured tolerance — in particular a match is never declared at a
distance above the tolerance. -/
theorem correlator_match_iff_hamming_distance (c : AccessCodeCorrelator)
    (symbol : Nat) :
    ((c.execute symbol).2 = true ↔
      hammingDistBits ((c.execute symbol).1).history c.access_code
          c.access_code_length
        ≤ c.access_code_tolerance) := by
  simp only [AccessCodeCorrelator.execute, decide_eq_true_eq]
  rw [countOnes_masked_xor]

/-- Witness for C7: with access-code length 32, tolerance 2 and target
pattern 0, a window differing in exactly 2 bits matches, and one
differing in exactly 3 bits does not. -/
theorem correlator_match_iff_hamming_distance_witness :
    ((AccessCodeCorrelator.mk 0 32 2 1).execute 1).2 = true ∧
    ((AccessCodeCorrelator.mk 0 32 2 5).execute 1).2 = false := by
  constructor
  · exact (correlator_match_iff_hamming_distance
      (AccessCodeCorrelator.mk 0 32 2 1) 1).mpr (by decide)
  · decide

/-- C10: the symbol decision the symbol handler passes to the
correlator and the packet builder is 1 whenever the demodulated value
is greater than or equal to zero (zero quantizes to 1) and 0 whenever
it is negative. -/
theorem symbol_decision_sign_quantization (s : FSKPipelineState) (v : ℚ) :
    (0 ≤ v → symbolHandlerFn s v = feedSymbol s 1) ∧
    (v < 0 → symbolHandlerFn s v = feedSymbol s 0) := by
  constructor
  · intro hv
    unfold symbolHandlerFn symbolDecision
    rw [if_pos hv]
  · intro hv
    unfold symbolHandlerFn symbolDecision
    rw [if_neg (not_le.mpr hv)]

/-- Witness for C10: at value 0 the pipeline is fed symbol 1; at value
-1 it is fed symbol 0. -/
theorem symbol_decision_sign_quantization_witness :
    symbolHandlerFn ⟨⟨0, 32, 2, 0⟩, ⟨128, false, []⟩⟩ 0 =
      feedSymbol ⟨⟨0, 32, 2, 0⟩, ⟨128, false, []⟩⟩ 1 ∧
    symbolHandlerFn ⟨⟨0, 32, 2, 0⟩, ⟨128, false, []⟩⟩ (-1) =
      feedSymbol ⟨⟨0, 32, 2, 0⟩, ⟨128, false, []⟩⟩ 0 :=
  ⟨(symbol_decision_sign_quantization _ 0).1 le_rfl,
   (symbol_decision_sign_quantization _ (-1)).2 (by norm_num)⟩
